import Mathlib

/-!
Verification of the ABSA-datasets format-normalization and label-derivation
pipeline (`data_adapter/data_object.py`).

The Python source is shallowly embedded: Python strings are `List Char`
(sequences of code points), Python `None`-or-value fields are `Option`,
Python exceptions are `Except`, and the partition record
`{'train': ..., 'dev': ..., 'test': ...}` is the structure `PartitionedData`.
Functions keep the source's names (the leading underscore of private Python
methods is dropped).
-/

/-! ## Python string helpers -/

/-- The character class `[\r\n]` used by the `re.sub` calls. -/
def isCrLf (c : Char) : Bool := c = '\r' || c = '\n'

/-- `re.sub('[\r\n]', repl, s)`: every carriage-return or newline character is
independently replaced by `repl`. -/
def reSubCrLf (repl : List Char) : List Char → List Char
  | [] => []
  | c :: rest =>
    if isCrLf c then repl ++ reSubCrLf repl rest else c :: reSubCrLf repl rest

/-- Structural worker for `reSubCrLfPlus`: `fuel` only bounds the recursion
depth (skipping a matched run shortens the list non-structurally); it is
always called with `fuel ≥ s.length`, which `reSubCrLfPlusAux_congr` shows
makes the result fuel-independent. -/
def reSubCrLfPlusAux (repl : List Char) : Nat → List Char → List Char
  | _, [] => []
  | 0, s => s
  | fuel + 1, c :: rest =>
    if isCrLf c then
      repl ++ reSubCrLfPlusAux repl fuel (rest.dropWhile isCrLf)
    else c :: reSubCrLfPlusAux repl fuel rest

/-- `re.sub('[\r\n]+', repl, s)`: every maximal nonempty run of
carriage-return/newline characters is replaced by one copy of `repl`
(the regex `+` is greedy, so a whole run is a single match). -/
def reSubCrLfPlus (repl s : List Char) : List Char :=
  reSubCrLfPlusAux repl s.length s

/-- Sufficient fuel makes the worker fuel-independent. -/
theorem reSubCrLfPlusAux_congr (repl : List Char) :
    ∀ (f₁ : Nat) (s : List Char) (f₂ : Nat), s.length ≤ f₁ → s.length ≤ f₂ →
      reSubCrLfPlusAux repl f₁ s = reSubCrLfPlusAux repl f₂ s
  | f₁, [], f₂, _, _ => by cases f₁ <;> cases f₂ <;> rfl
  | 0, c :: rest, _, h₁, _ => by simp at h₁
  | _ + 1, c :: rest, 0, _, h₂ => by simp at h₂
  | f₁ + 1, c :: rest, f₂ + 1, h₁, h₂ => by
    have hr₁ : rest.length ≤ f₁ := by
      simpa using Nat.succ_le_succ_iff.mp (by simpa using h₁)
    have hr₂ : rest.length ≤ f₂ := by
      simpa using Nat.succ_le_succ_iff.mp (by simpa using h₂)
    have hd : (rest.dropWhile isCrLf).length ≤ rest.length :=
      (List.dropWhile_suffix isCrLf).sublist.length_le
    simp only [reSubCrLfPlusAux]
    by_cases hc : isCrLf c
    · rw [if_pos hc, if_pos hc]
      rw [reSubCrLfPlusAux_congr repl f₁ (rest.dropWhile isCrLf) f₂
        (le_trans hd hr₁) (le_trans hd hr₂)]
    · rw [if_neg hc, if_neg hc]
      rw [reSubCrLfPlusAux_congr repl f₁ rest f₂ hr₁ hr₂]

/-- `reSubCrLfPlus` on the empty string. -/
theorem reSubCrLfPlus_nil (repl : List Char) : reSubCrLfPlus repl [] = [] :=
  rfl

/-- An ordinary character is copied and scanning continues. -/
theorem reSubCrLfPlus_cons_neg (repl : List Char) (c : Char)
    (rest : List Char) (h : ¬ isCrLf c = true) :
    reSubCrLfPlus repl (c :: rest) = c :: reSubCrLfPlus repl rest := by
  unfold reSubCrLfPlus
  simp only [List.length_cons, reSubCrLfPlusAux]
  rw [if_neg h]

/-- A carriage-return/newline character starts a maximal run: the whole run
is replaced by one copy of `repl` and scanning resumes after the run. -/
theorem reSubCrLfPlus_cons_pos (repl : List Char) (c : Char)
    (rest : List Char) (h : isCrLf c = true) :
    reSubCrLfPlus repl (c :: rest) =
      repl ++ reSubCrLfPlus repl (rest.dropWhile isCrLf) := by
  unfold reSubCrLfPlus
  simp only [List.length_cons, reSubCrLfPlusAux]
  rw [if_pos h]
  congr 1
  exact reSubCrLfPlusAux_congr repl rest.length (rest.dropWhile isCrLf) _
    (List.dropWhile_suffix isCrLf).sublist.length_le (le_refl _)

/-- Python slicing `s[a:b]` for `0 ≤ a ≤ b` (out-of-range ends are clamped,
exactly as `List.take`/`List.drop` clamp). -/
def pySlice (s : List Char) (a b : Nat) : List Char := (s.take b).drop a

/-- Python `str.lower()` (code-point-wise lowering). -/
def pyLower (s : List Char) : List Char := s.map Char.toLower

/-- The whitespace class stripped by Python `str.strip()`. -/
def isPySpace (c : Char) : Bool :=
  c = ' ' || c = '\t' || c = '\r' || c = '\n' || c = '\x0b' || c = '\x0c'

/-- Python `str.strip()`. -/
def pyStrip (s : List Char) : List Char :=
  ((s.dropWhile isPySpace).reverse.dropWhile isPySpace).reverse

/-- Index of the first occurrence of `sep` inside `s`, if any. -/
def firstOccur (sep : List Char) : List Char → Option Nat
  | [] => if sep = [] then some 0 else none
  | c :: rest =>
    if sep.isPrefixOf (c :: rest) then some 0
    else (firstOccur sep rest).map (· + 1)

/-- Python `s.partition(sep)`: split at the first occurrence of `sep`; when
`sep` does not occur the result is `(s, '', '')`. -/
def pyPartition (sep s : List Char) : List Char × List Char × List Char :=
  match firstOccur sep s with
  | some i => (s.take i, sep, s.drop (i + sep.length))
  | none => (s, [], [])

/-- Python `set.add` on the insertion-ordered model of a Python set: a list of
pairwise distinct elements.  Membership and size agree with the Python set. -/
def setAdd {α : Type} [DecidableEq α] (s : List α) (x : α) : List α :=
  if x ∈ s then s else s ++ [x]

/-- Lexicographic code-point comparison of character lists (Python's `<=`
on strings). -/
def charListLeb : List Char → List Char → Bool
  | [], _ => true
  | _ :: _, [] => false
  | a :: as, b :: bs => if a = b then charListLeb as bs else decide (a < b)

/-- Python `<=` on strings, by code points. -/
def strLeb (a b : String) : Bool := charListLeb a.data b.data

/-- One step of insertion sort with respect to `strLeb`. -/
def insertStr (x : String) : List String → List String
  | [] => [x]
  | y :: ys => if strLeb x y then x :: y :: ys else y :: insertStr x ys

/-- Python `list.sort()` on a list of strings: ascending lexicographic order
(implemented as insertion sort, which is stable like Python's sort; on the
duplicate-free lists produced by `setAdd` stability is irrelevant). -/
def pySortStr (xs : List String) : List String := xs.foldr insertStr []

/-! ## Partition records and the split generator -/

/-- The `{'train': ..., 'dev': ..., 'test': ...}` record.  `none` is Python's
`None`, the explicit absence marker (distinct from an empty list). -/
structure PartitionedData (α : Type) where
  train : Option (List α)
  dev : Option (List α)
  test : Option (List α)
deriving DecidableEq, Repr

/-- A linear congruential step; pseudo-random number source for the modelled
splitter. -/
def lcgNext (s : Nat) : Nat := (1103515245 * s + 12345) % 2147483648

/-- Remove the element at index `i` (clamped) from `xs`, returning it and the
remainder. -/
def pickAt {α : Type} (xs : List α) (i : Nat) : Option α × List α :=
  (xs.get? i, xs.eraseIdx i)

/-- Draw a pseudo-random permutation of `xs` driven by the seed `s`. -/
def seededShuffle {α : Type} : Nat → Nat → List α → List α
  | _, 0, _ => []
  | s, fuel + 1, xs =>
    let s' := lcgNext s
    match pickAt xs (s' % (xs.length + 1)) with
    | (some x, rest) => x :: seededShuffle s' fuel rest
    | (none, _) => []

/-- Modelled from the spec: `sklearn.model_selection.train_test_split` is not
part of the repository; per the spec's Split Generator contract it "randomly
partition[s] `train` into `(train', dev)` using a seedable generator — same
seed ⇒ identical partition across runs".  The model shuffles the samples with
a generator seeded by `random_state` and splits off `ceil(n * test_size)`
samples as the test (here: dev) part, mirroring sklearn's documented
behaviour as a pure function of its arguments. -/
def train_test_split {α : Type} (samples : List α) (test_size : ℚ)
    (random_state : Nat) : List α × List α :=
  let n := samples.length
  let nTest := (⌈(n : ℚ) * test_size⌉).toNat
  let shuffled := seededShuffle random_state n samples
  (shuffled.drop nTest, shuffled.take nTest)

/-- `BaseDataset.generate_dev_data`.  The Python mutates `result` in place;
the model returns the updated record.  When `dev` is absent and a nonzero
`dev_size` is requested while `train` is also absent, Python's
`train_test_split(None, ...)` raises — modelled as `Except.error`. -/
def generate_dev_data {α : Type} (result : PartitionedData α) (dev_size : ℚ)
    (random_state : Nat) : Except String (PartitionedData α) :=
  match result.dev with
  | none =>
    if dev_size ≠ 0 then
      match result.train with
      | some original_train_samples =>
        let p := train_test_split original_train_samples dev_size random_state
        .ok { result with train := some p.1, dev := some p.2 }
      | none => .error "train_test_split: train partition is None"
    else
      .ok { result with dev := result.test }
  | some _ => .ok result

/-! ## Claims C4, C7, C10: the split generator -/

/-- C4: on a record whose `dev` entry is the absence marker, requesting a dev
fraction of exactly zero aliases `dev` to the existing `test` partition and
leaves `train` (and everything else) untouched. -/
theorem C4_dev_zero_aliases_test {α : Type} (r : PartitionedData α)
    (seed : Nat) (h : r.dev = none) :
    generate_dev_data r 0 seed = .ok { r with dev := r.test } := by
  unfold generate_dev_data
  rw [h]
  simp

/-- Witness for C4 at a concrete record. -/
theorem C4_dev_zero_aliases_test_witness :
    generate_dev_data (PartitionedData.mk (some [1]) none (some [2])) 0 7 =
      .ok (PartitionedData.mk (some [1]) (some [2]) (some [2])) := by
  have h := C4_dev_zero_aliases_test
    (PartitionedData.mk (some [1]) none (some [2])) 7 rfl
  simpa using h

/-- C7: the split generator is deterministic under a fixed seed — two
invocations of `generate_dev_data` on equal inputs with the same
`random_state` produce identical results, and (second conjunct) the produced
`(train', dev)` pair depends only on the train samples, the fraction and the
seed, not on the `test` partition.  Randomness enters only through the
explicit `random_state` argument threaded to the modelled
`train_test_split`. -/
theorem C7_split_deterministic {α : Type} :
    (∀ (r₁ r₂ : PartitionedData α) (q₁ q₂ : ℚ) (s₁ s₂ : Nat),
      r₁ = r₂ → q₁ = q₂ → s₁ = s₂ → q₁ ≠ 0 →
      generate_dev_data r₁ q₁ s₁ = generate_dev_data r₂ q₂ s₂) ∧
    (∀ (tr : List α) (te₁ te₂ : Option (List α)) (q : ℚ) (s : Nat), q ≠ 0 →
      (generate_dev_data (PartitionedData.mk (some tr) none te₁) q s).map
          (fun r => (r.train, r.dev)) =
        (generate_dev_data (PartitionedData.mk (some tr) none te₂) q s).map
          (fun r => (r.train, r.dev))) := by
  constructor
  · intro r₁ r₂ q₁ q₂ s₁ s₂ hr hq hs _
    rw [hr, hq, hs]
  · intro tr te₁ te₂ q s hq
    simp [generate_dev_data, hq, Except.map]

/-- Witness for C7 at concrete inputs. -/
theorem C7_split_deterministic_witness :
    generate_dev_data (PartitionedData.mk (some [1, 2, 3]) none none) (1/2) 5 =
      generate_dev_data (PartitionedData.mk (some [1, 2, 3]) none none) (1/2) 5 := by
  exact (C7_split_deterministic (α := Nat)).1 _ _ _ _ _ _ rfl rfl rfl (by norm_num)

/-- C10: `generate_dev_data` only ever writes the `train` and `dev` entries:
a record whose `dev` entry is present is returned completely unchanged, and
in every successful call the `test` entry of the output equals the `test`
entry of the input. -/
theorem C10_frame {α : Type} (r : PartitionedData α) (q : ℚ) (s : Nat) :
    (r.dev ≠ none → generate_dev_data r q s = .ok r) ∧
    (∀ r', generate_dev_data r q s = .ok r' → r'.test = r.test) := by
  constructor
  · intro h
    unfold generate_dev_data
    cases hdev : r.dev with
    | none => exact absurd hdev h
    | some d => rfl
  · intro r' h
    unfold generate_dev_data at h
    cases hdev : r.dev with
    | some d =>
      rw [hdev] at h
      simp only [Except.ok.injEq] at h
      rw [← h]
    | none =>
      rw [hdev] at h
      by_cases hq : q = 0
      · simp only [hq, ne_eq, not_true_eq_false, reduceIte] at h
        simp only [Except.ok.injEq] at h
        rw [← h]
      · simp only [ne_eq, hq, not_false_eq_true, reduceIte] at h
        cases htr : r.train with
        | none => rw [htr] at h; exact absurd h (by simp)
        | some tr =>
          rw [htr] at h
          simp only [Except.ok.injEq] at h
          rw [← h]

/-- Witness for C10 at a concrete record with a present `dev` entry. -/
theorem C10_frame_witness :
    generate_dev_data (PartitionedData.mk (some [1]) (some [9]) (some [2])) (1/5) 3 =
      .ok (PartitionedData.mk (some [1]) (some [9]) (some [2])) :=
  (C10_frame (PartitionedData.mk (some [1]) (some [9]) (some [2])) (1/5) 3).1
    (by simp)

/-! ## The token-placeholder dialect adapter (`AsgcnData`) -/

namespace Asgcn

/-- `AspectTerm` as constructed by `AsgcnData` (category is left at its
`None` default and omitted; the polarity always comes from
`polarity_mapping`). -/
structure AspectTerm where
  term : List Char
  polarity : String
  from_index : Nat
  to_index : Nat
deriving DecidableEq, Repr

/-- `AbsaSentence` as constructed by `AsgcnData` (sentence polarity and
aspect categories are passed as `None`). -/
structure AbsaSentence where
  text : List Char
  aspect_terms : List AspectTerm
deriving DecidableEq, Repr

/-- `AbsaDocument` wrapping a single sentence, as built on line 271. -/
structure AbsaDocument where
  text : List Char
  absa_sentences : List AbsaSentence
deriving DecidableEq, Repr

/-- The ways `_load_data_by_filepath` can raise: an incomplete trailing
3-line record (`lines[i+1]` / `lines[i+2]` raise `IndexError`), the
mismatch branch (whose `logger.error('... != ...' (a, b))` line is missing
the `%` operator and would raise `TypeError` if executed), and an unknown
polarity key (`KeyError`). -/
inductive LoadErr where
  | indexError
  | aspectIndexTypeError
  | polarityKeyError
deriving DecidableEq, Repr

/-- The `polarity_mapping` dict `{'-1': 'negative', '0': 'neutral',
'1': 'positive'}`; `none` models the `KeyError` on any other key. -/
def polarity_mapping : List Char → Option String
  | ['-', '1'] => some "negative"
  | ['0'] => some "neutral"
  | ['1'] => some "positive"
  | _ => none

/-- The `"$T$"` placeholder token. -/
def dollarT : List Char := ['$', 'T', '$']

/-- The body of the 3-line-record loop of `_load_data_by_filepath`
(lines 253-270): split the first line around `$T$`, substitute the aspect
term, compute its span, verify the span, and map the polarity. -/
def parseRecord (line0 line1 line2 : List Char) : Except LoadErr AbsaSentence :=
  let parts := pyPartition dollarT line0
  let text_left := pyStrip (pyLower parts.1)
  let text_right := pyStrip (pyLower parts.2.2)
  let aspect := pyStrip (pyLower line1)
  let polarity := pyStrip line2
  let text_mid := if text_left ≠ [] then text_left ++ ' ' :: aspect else aspect
  let from_index := if text_left ≠ [] then text_left.length + 1 else 0
  let text := if text_right ≠ [] then text_mid ++ ' ' :: text_right else text_mid
  let to_index := from_index + aspect.length
  if pySlice text from_index to_index ≠ aspect then
    .error .aspectIndexTypeError
  else
    match polarity_mapping polarity with
    | some pol =>
      .ok (AbsaSentence.mk text [AspectTerm.mk aspect pol from_index to_index])
    | none => .error .polarityKeyError

/-- The `for i in range(0, len(lines), 3)` loop over one file's lines. -/
def load_file : List (List Char) → Except LoadErr (List AbsaSentence)
  | [] => .ok []
  | line0 :: line1 :: line2 :: rest => do
    let s ← parseRecord line0 line1 line2
    let ss ← load_file rest
    .ok (s :: ss)
  | _ => .error .indexError

/-- `AsgcnData._load_data_by_filepath`: parse both files and wrap each
sentence in a one-sentence document; the dev partition is the absence
marker. -/
def load_data_by_filepath (train_lines test_lines : List (List Char)) :
    Except LoadErr
      (Option (List AbsaDocument) × Option (List AbsaDocument) ×
        Option (List AbsaDocument)) := do
  let train_sentences ← load_file train_lines
  let test_sentences ← load_file test_lines
  .ok (some (train_sentences.map (fun s => AbsaDocument.mk s.text [s])), none,
    some (test_sentences.map (fun s => AbsaDocument.mk s.text [s])))

end Asgcn

/-- Slicing out the middle part of a three-part concatenation. -/
theorem pySlice_append (pre mid post : List Char) :
    pySlice (pre ++ mid ++ post) pre.length (pre.length + mid.length) = mid := by
  unfold pySlice
  rw [List.take_left' (by simp)]
  rw [List.drop_left]

/-- The span computed by `parseRecord` always extracts exactly the aspect
term: the substituted text is `left ++ ' ' :: aspect (++ ' ' :: right)` and
the offsets point at the `aspect` block. -/
theorem slice_eq_aspect (text_left aspect text_right : List Char) :
    pySlice
      (if text_right ≠ [] then
        (if text_left ≠ [] then text_left ++ ' ' :: aspect else aspect) ++
          ' ' :: text_right
       else if text_left ≠ [] then text_left ++ ' ' :: aspect else aspect)
      (if text_left ≠ [] then text_left.length + 1 else 0)
      ((if text_left ≠ [] then text_left.length + 1 else 0) + aspect.length) =
      aspect := by
  by_cases hl : text_left = [] <;> by_cases hr : text_right = [] <;>
    simp only [hl, hr, ne_eq, not_true_eq_false, not_false_eq_true, reduceIte,
      ite_true, ite_false]
  · simpa using pySlice_append [] aspect []
  · simpa using pySlice_append [] aspect (' ' :: text_right)
  · have h := pySlice_append (text_left ++ [' ']) aspect []
    simpa [List.append_assoc] using h
  · have h := pySlice_append (text_left ++ [' ']) aspect (' ' :: text_right)
    simpa [List.append_assoc] using h

/-- `parseRecord` never takes the mismatch branch. -/
theorem parseRecord_ne_mismatch (line0 line1 line2 : List Char) :
    Asgcn.parseRecord line0 line1 line2 ≠ .error .aspectIndexTypeError := by
  unfold Asgcn.parseRecord
  simp only [ne_eq, slice_eq_aspect, not_true_eq_false, reduceIte]
  split <;> simp

/-- Characterization of a successful `parseRecord`: the sentence holds
exactly one aspect term, built from the stripped lowered pieces, with the
offsets of lines 257-265. -/
theorem parseRecord_ok_char (line0 line1 line2 : List Char)
    (s : Asgcn.AbsaSentence)
    (h : Asgcn.parseRecord line0 line1 line2 = .ok s) :
    ∃ pol, Asgcn.polarity_mapping (pyStrip line2) = some pol ∧
      s = Asgcn.AbsaSentence.mk
        (if pyStrip (pyLower (pyPartition Asgcn.dollarT line0).2.2) ≠ [] then
          (if pyStrip (pyLower (pyPartition Asgcn.dollarT line0).1) ≠ [] then
            pyStrip (pyLower (pyPartition Asgcn.dollarT line0).1) ++
              ' ' :: pyStrip (pyLower line1)
           else pyStrip (pyLower line1)) ++
            ' ' :: pyStrip (pyLower (pyPartition Asgcn.dollarT line0).2.2)
         else
          if pyStrip (pyLower (pyPartition Asgcn.dollarT line0).1) ≠ [] then
            pyStrip (pyLower (pyPartition Asgcn.dollarT line0).1) ++
              ' ' :: pyStrip (pyLower line1)
          else pyStrip (pyLower line1))
        [Asgcn.AspectTerm.mk (pyStrip (pyLower line1)) pol
          (if pyStrip (pyLower (pyPartition Asgcn.dollarT line0).1) ≠ [] then
            (pyStrip (pyLower (pyPartition Asgcn.dollarT line0).1)).length + 1
           else 0)
          ((if pyStrip (pyLower (pyPartition Asgcn.dollarT line0).1) ≠ [] then
            (pyStrip (pyLower (pyPartition Asgcn.dollarT line0).1)).length + 1
           else 0) + (pyStrip (pyLower line1)).length)] := by
  unfold Asgcn.parseRecord at h
  simp only [ne_eq, slice_eq_aspect, not_true_eq_false, reduceIte] at h
  cases hp : Asgcn.polarity_mapping (pyStrip line2) with
  | none => rw [hp] at h; exact absurd h (by simp)
  | some pol =>
    rw [hp] at h
    simp only [Except.ok.injEq] at h
    exact ⟨pol, rfl, h.symm⟩

/-- Every sentence a successful `load_file` returns comes from a successful
`parseRecord` on some 3-line record of the file. -/
theorem load_file_mem :
    ∀ (lines : List (List Char)) (ss : List Asgcn.AbsaSentence),
      Asgcn.load_file lines = .ok ss →
      ∀ s ∈ ss, ∃ line0 line1 line2,
        Asgcn.parseRecord line0 line1 line2 = .ok s
  | [], ss, h, s, hs => by
    simp only [Asgcn.load_file, Except.ok.injEq] at h
    rw [← h] at hs
    simp at hs
  | line0 :: line1 :: line2 :: rest, ss, h, s, hs => by
    simp only [Asgcn.load_file, bind, Except.bind] at h
    cases hp : Asgcn.parseRecord line0 line1 line2 with
    | error e => rw [hp] at h; exact absurd h (by simp)
    | ok s0 =>
      rw [hp] at h
      cases hr : Asgcn.load_file rest with
      | error e => rw [hr] at h; exact absurd h (by simp)
      | ok ss0 =>
        rw [hr] at h
        simp only [Except.ok.injEq] at h
        rw [← h] at hs
        rcases List.mem_cons.mp hs with heq | hmem
        · exact ⟨line0, line1, line2, heq ▸ hp⟩
        · exact load_file_mem rest ss0 hr s hmem
  | [_], ss, h, s, hs => by simp [Asgcn.load_file] at h
  | [_, _], ss, h, s, hs => by simp [Asgcn.load_file] at h

/-- `load_file` never surfaces the mismatch-branch error. -/
theorem load_file_ne_mismatch :
    ∀ lines : List (List Char),
      Asgcn.load_file lines ≠ .error .aspectIndexTypeError
  | [] => by simp [Asgcn.load_file]
  | line0 :: line1 :: line2 :: rest => by
    simp only [Asgcn.load_file, bind, Except.bind]
    cases hp : Asgcn.parseRecord line0 line1 line2 with
    | error e =>
      intro hcontra
      simp only [Except.error.injEq] at hcontra
      exact parseRecord_ne_mismatch line0 line1 line2 (hcontra ▸ hp)
    | ok s0 =>
      cases hr : Asgcn.load_file rest with
      | error e =>
        intro hcontra
        simp only [Except.error.injEq] at hcontra
        exact load_file_ne_mismatch rest (hcontra ▸ hr)
      | ok ss0 => simp
  | [_] => by simp [Asgcn.load_file]
  | [_, _] => by simp [Asgcn.load_file]

/-- C2: in `AsgcnData._load_data_by_filepath` the span-verification branch
never aborts the corpus load — for every input file the load never raises
from that branch (first two conjuncts, per file and for the whole
train/test load), and in every successful load every produced record's
reconstructed span equals its aspect term, so the set of mismatching
records the claim quantifies over is empty and every created `AspectTerm`
is kept in the output (last conjunct). -/
theorem C2_mismatch_never_aborts :
    (∀ lines : List (List Char),
      Asgcn.load_file lines ≠ .error .aspectIndexTypeError) ∧
    (∀ train_lines test_lines : List (List Char),
      Asgcn.load_data_by_filepath train_lines test_lines ≠
        .error .aspectIndexTypeError) ∧
    (∀ (lines : List (List Char)) (ss : List Asgcn.AbsaSentence),
      Asgcn.load_file lines = .ok ss →
      ∀ s ∈ ss, ∀ t ∈ s.aspect_terms,
        pySlice s.text t.from_index t.to_index = t.term) := by
  refine ⟨load_file_ne_mismatch, ?_, ?_⟩
  · intro train_lines test_lines
    unfold Asgcn.load_data_by_filepath
    simp only [bind, Except.bind]
    cases htr : Asgcn.load_file train_lines with
    | error e =>
      intro hcontra
      simp only [Except.error.injEq] at hcontra
      exact load_file_ne_mismatch train_lines (hcontra ▸ htr)
    | ok tr =>
      cases hte : Asgcn.load_file test_lines with
      | error e =>
        intro hcontra
        simp only [Except.error.injEq] at hcontra
        exact load_file_ne_mismatch test_lines (hcontra ▸ hte)
      | ok te => simp
  · intro lines ss h s hs t ht
    obtain ⟨line0, line1, line2, hp⟩ := load_file_mem lines ss h s hs
    obtain ⟨pol, _, hshape⟩ := parseRecord_ok_char line0 line1 line2 s hp
    rw [hshape] at ht ⊢
    simp only [List.mem_singleton] at ht
    rw [ht]
    exact slice_eq_aspect _ _ _

/-- Witness for C2 on a concrete file: `"a $T$" / "b" / "1"`. -/
theorem C2_mismatch_never_aborts_witness :
    Asgcn.load_file [['a', ' ', '$', 'T', '$'], ['b'], ['1']] ≠
        .error .aspectIndexTypeError ∧
      pySlice ['a', ' ', 'b'] 2 3 = ['b'] := by
  have hload : Asgcn.load_file [['a', ' ', '$', 'T', '$'], ['b'], ['1']] =
      .ok [Asgcn.AbsaSentence.mk ['a', ' ', 'b']
        [Asgcn.AspectTerm.mk ['b'] "positive" 2 3]] := by rfl
  refine ⟨C2_mismatch_never_aborts.1 _, ?_⟩
  exact C2_mismatch_never_aborts.2.2 _ _ hload
    (Asgcn.AbsaSentence.mk ['a', ' ', 'b']
      [Asgcn.AspectTerm.mk ['b'] "positive" 2 3]) (by simp)
    (Asgcn.AspectTerm.mk ['b'] "positive" 2 3) (by simp)

/-- C5: for every successfully parsed 3-line record, the aspect term's
start offset is `len(left_context) + 1` when the left context is non-empty
and `0` when it is empty, the end offset is the start offset plus the
length of the term, and the reconstructed sentence carries the term at
exactly that span. -/
theorem C5_asgcn_offsets (line0 line1 line2 : List Char)
    (s : Asgcn.AbsaSentence)
    (h : Asgcn.parseRecord line0 line1 line2 = .ok s) :
    ∃ t, s.aspect_terms = [t] ∧
      t.term = pyStrip (pyLower line1) ∧
      t.from_index =
        (if pyStrip (pyLower (pyPartition Asgcn.dollarT line0).1) = [] then 0
         else (pyStrip (pyLower (pyPartition Asgcn.dollarT line0).1)).length + 1) ∧
      t.to_index = t.from_index + t.term.length ∧
      pySlice s.text t.from_index t.to_index = t.term := by
  obtain ⟨pol, _, hshape⟩ := parseRecord_ok_char line0 line1 line2 s h
  subst hshape
  refine ⟨_, rfl, rfl, ?_, rfl, slice_eq_aspect _ _ _⟩
  by_cases hl : pyStrip (pyLower (pyPartition Asgcn.dollarT line0).1) = [] <;>
    simp [hl]

/-- Witness for C5 at the record `"a $T$" / "b" / "1"`. -/
theorem C5_asgcn_offsets_witness :
    ∃ t : Asgcn.AspectTerm,
      (Asgcn.AbsaSentence.mk ['a', ' ', 'b']
        [Asgcn.AspectTerm.mk ['b'] "positive" 2 3]).aspect_terms = [t] ∧
      t.term = pyStrip (pyLower ['b']) ∧
      t.from_index =
        (if pyStrip (pyLower
            (pyPartition Asgcn.dollarT ['a', ' ', '$', 'T', '$']).1) = []
         then 0
         else (pyStrip (pyLower
            (pyPartition Asgcn.dollarT ['a', ' ', '$', 'T', '$']).1)).length + 1) ∧
      t.to_index = t.from_index + t.term.length ∧
      pySlice (Asgcn.AbsaSentence.mk ['a', ' ', 'b']
          [Asgcn.AspectTerm.mk ['b'] "positive" 2 3]).text
        t.from_index t.to_index = t.term :=
  C5_asgcn_offsets ['a', ' ', '$', 'T', '$'] ['b'] ['1'] _ (by rfl)

/-! ## The canonical data model and `BaseDataset.generate_atsa_data` -/

namespace Base

/-- The `AspectTerm` record (term text, polarity label, inclusive/exclusive
character offsets, optional category). -/
structure AspectTerm where
  term : List Char
  polarity : String
  from_index : Int
  to_index : Int
  category : Option String := none
deriving DecidableEq, Repr

/-- The `AspectCategory` record. -/
structure AspectCategory where
  category : String
  polarity : String
deriving DecidableEq, Repr

/-- `AbsaSentence` with the fields the derivation engine reads. -/
structure AbsaSentence where
  text : List Char
  aspect_categories : List AspectCategory := []
  aspect_terms : List AspectTerm := []
deriving DecidableEq, Repr

/-- `AbsaDocument` with the fields the derivation engine reads. -/
structure AbsaDocument where
  text : List Char
  absa_sentences : List AbsaSentence
deriving DecidableEq, Repr

/-- One sample of `generate_atsa_data` (lines 196-203): the text with every
`[\r\n]` character removed, labelled by the sentence's aspect-term list,
appended unconditionally. -/
def atsa_sentence_sample (s : AbsaSentence) : List Char × List AspectTerm :=
  (reSubCrLf [] s.text, s.aspect_terms)

/-- The samples one partition contributes to `generate_atsa_data`. -/
def atsa_samples (data : List AbsaDocument) :
    List (List Char × List AspectTerm) :=
  data.flatMap (fun d => d.absa_sentences.map atsa_sentence_sample)

/-- The polarities one partition adds to `distinct_polarities`. -/
def atsa_polarities (pols : List String) (data : List AbsaDocument) :
    List String :=
  data.foldl
    (fun acc d =>
      d.absa_sentences.foldl
        (fun acc s =>
          s.aspect_terms.foldl (fun acc t => setAdd acc t.polarity) acc)
        acc)
    pols

/-- Fold a partition's polarity contribution, skipping absent partitions. -/
def atsa_polarities_opt (pols : List String)
    (data : Option (List AbsaDocument)) : List String :=
  match data with
  | none => pols
  | some d => atsa_polarities pols d

/-- `BaseDataset.generate_atsa_data` (lines 178-212).  `test_size = none`
models `test_size=None`.  The dev split, taken when the corpus has no dev
partition and a split size is requested, calls `train_test_split` without a
`random_state`; `ambient_seed` stands for the state of sklearn's global
generator at that moment. -/
def generate_atsa_data (parts : PartitionedData AbsaDocument)
    (test_size : Option ℚ) (ambient_seed : Nat) :
    Except String
      (PartitionedData (List Char × List AspectTerm) × List String) :=
  let result : PartitionedData (List Char × List AspectTerm) :=
    ⟨parts.train.map atsa_samples, parts.dev.map atsa_samples,
      parts.test.map atsa_samples⟩
  let pols := atsa_polarities_opt
    (atsa_polarities_opt (atsa_polarities_opt [] parts.train) parts.dev)
    parts.test
  match result.dev, test_size with
  | none, some ts =>
    match result.train with
    | some original_train_samples =>
      let p := train_test_split original_train_samples ts ambient_seed
      .ok (⟨some p.1, some p.2, result.test⟩, pySortStr pols)
    | none => .error "train_test_split: train partition is None"
  | none, none => .ok (result, pySortStr pols)
  | some d, _ => .ok (⟨result.train, some d, result.test⟩, pySortStr pols)

end Base

/-! ## `Semeval2016Task5Sub1.generate_aspect_category_detection_data` -/

namespace Semeval2016Task5Sub1

/-- One sample of the aspect-category-detection task (lines 697-704): the
text with every `[\r\n]` character replaced by a space, labelled by the
list of the sentence's category strings, appended unconditionally. -/
def acd_sentence_sample (s : Base.AbsaSentence) : List Char × List String :=
  (reSubCrLf [' '] s.text, s.aspect_categories.map (fun c => c.category))

/-- The samples one partition contributes. -/
def acd_samples (data : List Base.AbsaDocument) :
    List (List Char × List String) :=
  data.flatMap (fun d => d.absa_sentences.map acd_sentence_sample)

/-- The categories one partition adds to `distinct_categories`. -/
def acd_categories (cats : List String) (data : List Base.AbsaDocument) :
    List String :=
  data.foldl
    (fun acc d =>
      d.absa_sentences.foldl
        (fun acc s =>
          s.aspect_categories.foldl (fun acc c => setAdd acc c.category) acc)
        acc)
    cats

/-- Skip absent partitions. -/
def acd_categories_opt (cats : List String)
    (data : Option (List Base.AbsaDocument)) : List String :=
  match data with
  | none => cats
  | some d => acd_categories cats d

/-- `Semeval2016Task5Sub1.generate_aspect_category_detection_data`
(lines 681-713).  The dev split is unseeded in the source
(`train_test_split(..., test_size=test_size)`), so `ambient_seed` models
the global generator state. -/
def generate_aspect_category_detection_data
    (parts : PartitionedData Base.AbsaDocument) (test_size : ℚ)
    (ambient_seed : Nat) :
    Except String (PartitionedData (List Char × List String) × List String) :=
  let result : PartitionedData (List Char × List String) :=
    ⟨parts.train.map acd_samples, parts.dev.map acd_samples,
      parts.test.map acd_samples⟩
  let cats := acd_categories_opt
    (acd_categories_opt (acd_categories_opt [] parts.train) parts.dev)
    parts.test
  match result.dev with
  | none =>
    match result.train with
    | some original_train_samples =>
      let p := train_test_split original_train_samples test_size ambient_seed
      .ok (⟨some p.1, some p.2, result.test⟩, pySortStr cats)
    | none => .error "train_test_split: train partition is None"
  | some d => .ok (⟨result.train, some d, result.test⟩, pySortStr cats)

end Semeval2016Task5Sub1

/-! ## Claim C3: empty-label samples -/

/-- C3 counterexample: a sentence with no aspect terms and no aspect
categories yields an output sample with an empty label in both
`generate_atsa_data` and `generate_aspect_category_detection_data` — the
empty-label sample is retained, not dropped, contradicting the claim that
no output sample of these two tasks has an empty label. -/
theorem C3_counterexample :
    Base.generate_atsa_data
        (PartitionedData.mk
          (some [Base.AbsaDocument.mk ['h', 'i']
            [Base.AbsaSentence.mk ['h', 'i'] [] []]])
          (some [Base.AbsaDocument.mk ['h', 'i']
            [Base.AbsaSentence.mk ['h', 'i'] [] []]])
          (some [Base.AbsaDocument.mk ['h', 'i']
            [Base.AbsaSentence.mk ['h', 'i'] [] []]]))
        (some (1/5)) 0 =
      .ok (PartitionedData.mk (some [(['h', 'i'], [])])
          (some [(['h', 'i'], [])]) (some [(['h', 'i'], [])]), []) ∧
    Semeval2016Task5Sub1.generate_aspect_category_detection_data
        (PartitionedData.mk
          (some [Base.AbsaDocument.mk ['h', 'i']
            [Base.AbsaSentence.mk ['h', 'i'] [] []]])
          (some [Base.AbsaDocument.mk ['h', 'i']
            [Base.AbsaSentence.mk ['h', 'i'] [] []]])
          (some [Base.AbsaDocument.mk ['h', 'i']
            [Base.AbsaSentence.mk ['h', 'i'] [] []]]))
        (1/5) 0 =
      .ok (PartitionedData.mk (some [(['h', 'i'], [])])
          (some [(['h', 'i'], [])]) (some [(['h', 'i'], [])]), []) := by
  constructor <;> rfl

/-- C3 amended: `generate_atsa_data` and
`generate_aspect_category_detection_data` retain empty-label sentences:
each partition's sample list is exactly the one-sample-per-sentence map
over all sentences (first and third conjuncts), so the number of output
samples equals (not merely bounds) the number of input sentences (second
and fourth conjuncts); the whole generators return exactly these
per-partition maps when a dev partition is present (last two conjuncts).
The empty-label drop exists only in `generate_acd_and_sc_data`. -/
theorem C3_amended :
    (∀ data : List Base.AbsaDocument,
      Base.atsa_samples data =
        (data.flatMap (fun d => d.absa_sentences)).map
          Base.atsa_sentence_sample) ∧
    (∀ data : List Base.AbsaDocument,
      (Base.atsa_samples data).length =
        (data.flatMap (fun d => d.absa_sentences)).length) ∧
    (∀ data : List Base.AbsaDocument,
      Semeval2016Task5Sub1.acd_samples data =
        (data.flatMap (fun d => d.absa_sentences)).map
          Semeval2016Task5Sub1.acd_sentence_sample) ∧
    (∀ data : List Base.AbsaDocument,
      (Semeval2016Task5Sub1.acd_samples data).length =
        (data.flatMap (fun d => d.absa_sentences)).length) ∧
    (∀ (parts : PartitionedData Base.AbsaDocument) (ts : Option ℚ)
        (seed : Nat), parts.dev ≠ none →
      (Base.generate_atsa_data parts ts seed).map (fun r => r.1) =
        .ok (PartitionedData.mk (parts.train.map Base.atsa_samples)
          (parts.dev.map Base.atsa_samples)
          (parts.test.map Base.atsa_samples))) ∧
    (∀ (parts : PartitionedData Base.AbsaDocument) (ts : ℚ) (seed : Nat),
      parts.dev ≠ none →
      (Semeval2016Task5Sub1.generate_aspect_category_detection_data
          parts ts seed).map (fun r => r.1) =
        .ok (PartitionedData.mk
          (parts.train.map Semeval2016Task5Sub1.acd_samples)
          (parts.dev.map Semeval2016Task5Sub1.acd_samples)
          (parts.test.map Semeval2016Task5Sub1.acd_samples))) := by
  refine ⟨?_, ?_, ?_, ?_, ?_, ?_⟩
  · intro data
    rw [List.map_flatMap]
    rfl
  · intro data
    have h : Base.atsa_samples data =
        (data.flatMap (fun d => d.absa_sentences)).map
          Base.atsa_sentence_sample := by
      rw [List.map_flatMap]
      rfl
    rw [h, List.length_map]
  · intro data
    rw [List.map_flatMap]
    rfl
  · intro data
    have h : Semeval2016Task5Sub1.acd_samples data =
        (data.flatMap (fun d => d.absa_sentences)).map
          Semeval2016Task5Sub1.acd_sentence_sample := by
      rw [List.map_flatMap]
      rfl
    rw [h, List.length_map]
  · intro parts ts seed h
    obtain ⟨tr, dv, te⟩ := parts
    cases dv with
    | none => exact absurd rfl h
    | some d => rfl
  · intro parts ts seed h
    obtain ⟨tr, dv, te⟩ := parts
    cases dv with
    | none => exact absurd rfl h
    | some d => rfl

/-- Witness for the amended C3 at concrete records with a present dev
partition. -/
theorem C3_amended_witness :
    (Base.generate_atsa_data (PartitionedData.mk none (some []) none)
        none 0).map (fun r => r.1) =
      .ok (PartitionedData.mk none (some []) none) ∧
    (Semeval2016Task5Sub1.generate_aspect_category_detection_data
        (PartitionedData.mk none (some []) none) (1/5) 0).map (fun r => r.1) =
      .ok (PartitionedData.mk none (some []) none) := by
  constructor
  · have h := C3_amended.2.2.2.2.1 (PartitionedData.mk none (some []) none)
      none 0 (by simp)
    simpa using h
  · have h := C3_amended.2.2.2.2.2 (PartitionedData.mk none (some []) none)
      (1/5) 0 (by simp)
    simpa using h

/-! ## `Semeval2015Task12.generate_acd_and_sc_data` (lines 614-673) -/

namespace Sem15

/-- `AspectTerm` as built by the Semeval-2015 adapter (lines 594-599):
target, polarity, span and category are all present attributes. -/
structure AspectTerm where
  term : List Char
  polarity : String
  from_index : Int
  to_index : Int
  category : String
deriving DecidableEq, Repr

/-- `AspectCategory` (category + polarity, no span). -/
structure AspectCategory where
  category : String
  polarity : String
deriving DecidableEq, Repr

/-- `AbsaSentence` with the fields `generate_acd_and_sc_data` reads. -/
structure AbsaSentence where
  text : List Char
  aspect_categories : List AspectCategory := []
  aspect_terms : List AspectTerm := []
deriving DecidableEq, Repr

/-- `AbsaDocument` with the fields `generate_acd_and_sc_data` reads. -/
structure AbsaDocument where
  text : List Char
  absa_sentences : List AbsaSentence
deriving DecidableEq, Repr

/-- One insertion into `aspect_categories_temp` (lines 640-645): an
insertion-ordered dict from category to the Python set of polarities voted
for it (modelled as a duplicate-free list). -/
def addVote (buckets : List (String × List String))
    (category polarity : String) : List (String × List String) :=
  if buckets.any (fun b => b.1 = category) then
    buckets.map (fun b =>
      if b.1 = category then (b.1, setAdd b.2 polarity) else b)
  else buckets ++ [(category, [polarity])]

/-- The `aspect_categories_temp` dict after the term loop. -/
def aspect_categories_temp (terms : List AspectTerm) :
    List (String × List String) :=
  terms.foldl (fun bs t => addVote bs t.category t.polarity) []

/-- The value the loop variable `polarity` holds after the term loop
(line 642): the last term's polarity.  When the sentence has no terms the
bucket loop below is empty and this value is never read. -/
def last_polarity (terms : List AspectTerm) : String :=
  match terms.getLast? with
  | some t => t.polarity
  | none => ""

/-- One iteration of the bucket loop (lines 646-663) over the running
state `(label, distinct_categories, distinct_polarities)`.  In the
singleton branch the source records the stale loop variable `polarity`
(the last term's polarity) into `distinct_polarities` instead of the
popped vote; the model reproduces that. -/
def bucket_step (lastPol : String)
    (st : List (String × String) × List String × List String)
    (bucket : String × List String) :
    List (String × String) × List String × List String :=
  if bucket.2.length = 1 then
    (st.1 ++ [(bucket.1, bucket.2.headI)], setAdd st.2.1 bucket.1,
      setAdd st.2.2 lastPol)
  else if ("positive" ∈ bucket.2 ∧ "negative" ∈ bucket.2) ∨
      "conflict" ∈ bucket.2 then
    (st.1 ++ [(bucket.1, "conflict")], setAdd st.2.1 bucket.1,
      setAdd st.2.2 "conflict")
  else if "positive" ∈ bucket.2 ∧ "neutral" ∈ bucket.2 then
    (st.1 ++ [(bucket.1, "positive")], setAdd st.2.1 bucket.1,
      setAdd st.2.2 "positive")
  else
    (st.1 ++ [(bucket.1, "negative")], setAdd st.2.1 bucket.1,
      setAdd st.2.2 "negative")

/-- Per-sentence label computation with vocabulary accumulation: the label
starts empty, the vocabularies flow in from previous sentences. -/
def sentence_step (cats pols : List String) (s : AbsaSentence) :
    List (String × String) × List String × List String :=
  (aspect_categories_temp s.aspect_terms).foldl
    (bucket_step (last_polarity s.aspect_terms)) ([], cats, pols)

/-- The partition loop (lines 630-667): per sentence, normalize the text
with `re.sub('[\r\n]+', ' ', ...)`, compute the label, skip the sample if
the label is empty (`continue`), otherwise append it. -/
def process_partition (cats pols : List String) (data : List AbsaDocument) :
    List (List Char × List (String × String)) × List String × List String :=
  data.foldl
    (fun st d =>
      d.absa_sentences.foldl
        (fun st s =>
          let content := reSubCrLfPlus [' '] s.text
          let r := sentence_step st.2.1 st.2.2 s
          if r.1 = [] then (st.1, r.2.1, r.2.2)
          else (st.1 ++ [(content, r.1)], r.2.1, r.2.2))
        st)
    ([], cats, pols)

/-- Skip absent partitions (the `if data is None: continue`). -/
def process_partition_opt (cats pols : List String)
    (data : Option (List AbsaDocument)) :
    Option (List (List Char × List (String × String))) ×
      List String × List String :=
  match data with
  | none => (none, cats, pols)
  | some d =>
    let r := process_partition cats pols d
    (some r.1, r.2.1, r.2.2)

/-- `Semeval2015Task12.generate_acd_and_sc_data`: partitions are processed
in the order train, dev, test, the dev split runs with the default seed
1234, and both vocabularies are returned sorted. -/
def generate_acd_and_sc_data (parts : PartitionedData AbsaDocument)
    (dev_size : ℚ) :
    Except String
      (PartitionedData (List Char × List (String × String)) ×
        List String × List String) :=
  let rTrain := process_partition_opt [] [] parts.train
  let rDev := process_partition_opt rTrain.2.1 rTrain.2.2 parts.dev
  let rTest := process_partition_opt rDev.2.1 rDev.2.2 parts.test
  let result : PartitionedData (List Char × List (String × String)) :=
    ⟨rTrain.1, rDev.1, rTest.1⟩
  match generate_dev_data result dev_size 1234 with
  | .error e => .error e
  | .ok result =>
    .ok (result, pySortStr rTest.2.1, pySortStr rTest.2.2)

end Sem15

/-- The reconciliation rule exactly as the claim states it: one emitted
polarity per vote set — a singleton vote set is emitted verbatim; else a
set containing both positive and negative, or containing conflict, yields
conflict; else a set containing positive and neutral yields positive; else
negative. -/
def reconcileSpec (votes : List String) : String :=
  if votes.length = 1 then votes.headI
  else if ("positive" ∈ votes ∧ "negative" ∈ votes) ∨ "conflict" ∈ votes then
    "conflict"
  else if "positive" ∈ votes ∧ "neutral" ∈ votes then "positive"
  else "negative"

/-! ## Claim C1: the reconciliation rule -/

/-- Membership in the Python-set model. -/
theorem mem_setAdd {α : Type} [DecidableEq α] (s : List α) (x y : α) :
    y ∈ setAdd s x ↔ y ∈ s ∨ y = x := by
  unfold setAdd
  by_cases h : x ∈ s
  · simp only [h, reduceIte]
    constructor
    · exact Or.inl
    · rintro (hy | rfl) <;> assumption
  · simp [h]

/-- `setAdd` preserves duplicate-freeness. -/
theorem nodup_setAdd {α : Type} [DecidableEq α] (s : List α) (x : α)
    (h : s.Nodup) : (setAdd s x).Nodup := by
  unfold setAdd
  by_cases hx : x ∈ s
  · simpa [hx]
  · simp [hx, List.nodup_append, h]

/-- The emitted pair of one bucket iteration is the bucket's category with
the reconciled polarity of the claim's rule. -/
theorem bucket_step_fst (lastPol : String)
    (st : List (String × String) × List String × List String)
    (b : String × List String) :
    (Sem15.bucket_step lastPol st b).1 = st.1 ++ [(b.1, reconcileSpec b.2)] := by
  unfold Sem15.bucket_step reconcileSpec
  split_ifs <;> rfl

/-- The bucket loop appends exactly one reconciled pair per bucket, in
bucket order. -/
theorem foldl_bucket_step_fst (lastPol : String) :
    ∀ (buckets : List (String × List String))
      (st : List (String × String) × List String × List String),
      (buckets.foldl (Sem15.bucket_step lastPol) st).1 =
        st.1 ++ buckets.map (fun b => (b.1, reconcileSpec b.2))
  | [], st => by simp
  | b :: rest, st => by
    rw [List.foldl_cons, foldl_bucket_step_fst lastPol rest]
    rw [bucket_step_fst]
    simp

/-- The invariant of the `aspect_categories_temp` fold: bucket keys are the
distinct categories seen so far (in first-occurrence order, duplicate-free)
and each bucket's vote set is exactly the set of polarities its category
was voted. -/
def BucketsInv (terms : List Sem15.AspectTerm)
    (bs : List (String × List String)) : Prop :=
  (bs.map Prod.fst).Nodup ∧
  (∀ c, c ∈ bs.map Prod.fst ↔ ∃ t ∈ terms, t.category = c) ∧
  (∀ c vs, (c, vs) ∈ bs → vs.Nodup ∧
    ∀ p, p ∈ vs ↔ ∃ t ∈ terms, t.category = c ∧ t.polarity = p)

/-- The `any` guard of `addVote` tests key membership. -/
theorem addVote_any_iff (bs : List (String × List String)) (c : String) :
    (bs.any (fun b => b.1 = c) = true) ↔ c ∈ bs.map Prod.fst := by
  simp only [List.any_eq_true, decide_eq_true_eq, List.mem_map]

/-- One `addVote` step preserves the invariant, extending the processed
prefix by the inserted term. -/
theorem addVote_inv (pre : List Sem15.AspectTerm)
    (bs : List (String × List String)) (t : Sem15.AspectTerm)
    (h : BucketsInv pre bs) :
    BucketsInv (pre ++ [t]) (Sem15.addVote bs t.category t.polarity) := by
  obtain ⟨hnd, hkeys, hvotes⟩ := h
  by_cases hmem : t.category ∈ bs.map Prod.fst
  · have hany : (bs.any (fun b => b.1 = t.category)) = true :=
      (addVote_any_iff bs t.category).mpr hmem
    unfold Sem15.addVote
    rw [if_pos hany]
    have hfst : (bs.map (fun b =>
        if b.1 = t.category then (b.1, setAdd b.2 t.polarity) else b)).map
          Prod.fst = bs.map Prod.fst := by
      rw [List.map_map]
      apply List.map_congr_left
      intro b _
      by_cases hb : b.1 = t.category <;> simp [hb]
    refine ⟨?_, ?_, ?_⟩
    · rw [hfst]
      exact hnd
    · intro c
      rw [hfst]
      constructor
      · intro hc
        obtain ⟨t0, ht0, ht0c⟩ := (hkeys c).mp hc
        exact ⟨t0, List.mem_append_left _ ht0, ht0c⟩
      · rintro ⟨t0, ht0, ht0c⟩
        rcases List.mem_append.mp ht0 with h0 | h0
        · exact (hkeys c).mpr ⟨t0, h0, ht0c⟩
        · have ht0t : t0 = t := List.mem_singleton.mp h0
          rw [← ht0c, ht0t]
          exact hmem
    · intro c vs hcvs
      obtain ⟨b, hb, hbeq⟩ := List.mem_map.mp hcvs
      obtain ⟨b1, b2⟩ := b
      obtain ⟨hbnd, hbiff⟩ := hvotes b1 b2 hb
      by_cases hbc : b1 = t.category
      · rw [if_pos hbc] at hbeq
        injection hbeq with hc hv
        subst hc
        subst hv
        refine ⟨nodup_setAdd _ _ hbnd, ?_⟩
        intro p
        rw [mem_setAdd, hbiff p]
        constructor
        · rintro (⟨t0, ht0, hc0, hp0⟩ | rfl)
          · exact ⟨t0, List.mem_append_left _ ht0, hc0, hp0⟩
          · exact ⟨t, List.mem_append_right _ (List.mem_singleton.mpr rfl),
              hbc.symm, rfl⟩
        · rintro ⟨t0, ht0, hc0, hp0⟩
          rcases List.mem_append.mp ht0 with h0 | h0
          · exact Or.inl ⟨t0, h0, hc0, hp0⟩
          · have ht0t : t0 = t := List.mem_singleton.mp h0
            rw [ht0t] at hp0
            exact Or.inr hp0.symm
      · rw [if_neg hbc] at hbeq
        injection hbeq with hc hv
        subst hc
        subst hv
        refine ⟨hbnd, ?_⟩
        intro p
        rw [hbiff p]
        constructor
        · rintro ⟨t0, ht0, hc0, hp0⟩
          exact ⟨t0, List.mem_append_left _ ht0, hc0, hp0⟩
        · rintro ⟨t0, ht0, hc0, hp0⟩
          rcases List.mem_append.mp ht0 with h0 | h0
          · exact ⟨t0, h0, hc0, hp0⟩
          · have ht0t : t0 = t := List.mem_singleton.mp h0
            rw [ht0t] at hc0
            exact absurd hc0.symm hbc
  · have hany : ¬ ((bs.any (fun b => b.1 = t.category)) = true) := fun hcon =>
      hmem ((addVote_any_iff bs t.category).mp hcon)
    unfold Sem15.addVote
    rw [if_neg hany]
    refine ⟨?_, ?_, ?_⟩
    · rw [List.map_append]
      rw [List.nodup_append]
      refine ⟨hnd, List.nodup_singleton _, ?_⟩
      intro c hc
      simp only [List.map_cons, List.map_nil, List.mem_singleton]
      intro hceq
      exact hmem (hceq ▸ hc)
    · intro c
      rw [List.map_append]
      constructor
      · intro hc
        rcases List.mem_append.mp hc with h0 | h0
        · obtain ⟨t0, ht0, ht0c⟩ := (hkeys c).mp h0
          exact ⟨t0, List.mem_append_left _ ht0, ht0c⟩
        · have hcc : c = t.category := by simpa using h0
          exact ⟨t, List.mem_append_right _ (List.mem_singleton.mpr rfl),
            hcc.symm⟩
      · rintro ⟨t0, ht0, ht0c⟩
        rcases List.mem_append.mp ht0 with h0 | h0
        · exact List.mem_append_left _ ((hkeys c).mpr ⟨t0, h0, ht0c⟩)
        · have ht0t : t0 = t := List.mem_singleton.mp h0
          apply List.mem_append_right
          rw [← ht0c, ht0t]
          simp
    · intro c vs hcvs
      rcases List.mem_append.mp hcvs with hin | hnew
      · obtain ⟨hbnd, hbiff⟩ := hvotes c vs hin
        refine ⟨hbnd, ?_⟩
        intro p
        rw [hbiff p]
        constructor
        · rintro ⟨t0, ht0, hc0, hp0⟩
          exact ⟨t0, List.mem_append_left _ ht0, hc0, hp0⟩
        · rintro ⟨t0, ht0, hc0, hp0⟩
          rcases List.mem_append.mp ht0 with h0 | h0
          · exact ⟨t0, h0, hc0, hp0⟩
          · have ht0t : t0 = t := List.mem_singleton.mp h0
            have hck : c ∈ bs.map Prod.fst :=
              List.mem_map.mpr ⟨(c, vs), hin, rfl⟩
            rw [ht0t] at hc0
            rw [← hc0] at hck
            exact absurd hck hmem
      · have hpair : (c, vs) = (t.category, [t.polarity]) :=
          List.mem_singleton.mp hnew
        injection hpair with hc hv
        subst hc
        subst hv
        refine ⟨List.nodup_singleton _, ?_⟩
        intro p
        rw [List.mem_singleton]
        constructor
        · rintro rfl
          exact ⟨t, List.mem_append_right _ (List.mem_singleton.mpr rfl),
            rfl, rfl⟩
        · rintro ⟨t0, ht0, hc0, hp0⟩
          rcases List.mem_append.mp ht0 with h0 | h0
          · exact absurd ((hkeys t.category).mpr ⟨t0, h0, hc0⟩) hmem
          · have ht0t : t0 = t := List.mem_singleton.mp h0
            rw [ht0t] at hp0
            exact hp0.symm

/-- The fold over a term list preserves the invariant. -/
theorem foldl_addVote_inv :
    ∀ (rest pre : List Sem15.AspectTerm) (bs : List (String × List String)),
      BucketsInv pre bs →
      BucketsInv (pre ++ rest)
        (rest.foldl (fun bs t => Sem15.addVote bs t.category t.polarity) bs)
  | [], pre, bs, h => by simpa using h
  | t :: rest, pre, bs, h => by
    have h2 := foldl_addVote_inv rest (pre ++ [t]) _ (addVote_inv pre bs t h)
    rw [List.foldl_cons]
    have hassoc : pre ++ [t] ++ rest = pre ++ t :: rest := by simp
    rw [hassoc] at h2
    exact h2

/-- `aspect_categories_temp` satisfies the bucket invariant. -/
theorem aspect_categories_temp_inv (terms : List Sem15.AspectTerm) :
    BucketsInv terms (Sem15.aspect_categories_temp terms) := by
  have h := foldl_addVote_inv terms [] []
    ⟨List.nodup_nil, by simp, by simp⟩
  simpa [Sem15.aspect_categories_temp] using h

/-- C1: in `Semeval2015Task12.generate_acd_and_sc_data`, aspect terms are
grouped by category into duplicate-free vote sets (conjunct 2), each
category bucket emits exactly one `(category, polarity)` pair given by the
claim's branch rule (`reconcileSpec`, conjunct 1), and the branch order of
the bucket loop is: singleton vote emitted verbatim (conjunct 3), then the
conflict check (conjunct 4), then the positive/neutral check (conjunct 5),
then the negative fallback (conjunct 6). -/
theorem C1_reconciliation :
    (∀ (cats pols : List String) (s : Sem15.AbsaSentence),
      (Sem15.sentence_step cats pols s).1 =
        (Sem15.aspect_categories_temp s.aspect_terms).map
          (fun b => (b.1, reconcileSpec b.2))) ∧
    (∀ terms : List Sem15.AspectTerm,
      ((Sem15.aspect_categories_temp terms).map Prod.fst).Nodup ∧
      (∀ c, c ∈ (Sem15.aspect_categories_temp terms).map Prod.fst ↔
        ∃ t ∈ terms, t.category = c) ∧
      (∀ c vs, (c, vs) ∈ Sem15.aspect_categories_temp terms → vs.Nodup ∧
        ∀ p, p ∈ vs ↔ ∃ t ∈ terms, t.category = c ∧ t.polarity = p)) ∧
    (∀ (lastPol : String)
        (st : List (String × String) × List String × List String)
        (c p : String) (vs : List String), vs = [p] →
      (Sem15.bucket_step lastPol st (c, vs)).1 = st.1 ++ [(c, p)]) ∧
    (∀ (lastPol : String)
        (st : List (String × String) × List String × List String)
        (c : String) (vs : List String), vs.length ≠ 1 →
      (("positive" ∈ vs ∧ "negative" ∈ vs) ∨ "conflict" ∈ vs) →
      (Sem15.bucket_step lastPol st (c, vs)).1 = st.1 ++ [(c, "conflict")]) ∧
    (∀ (lastPol : String)
        (st : List (String × String) × List String × List String)
        (c : String) (vs : List String), vs.length ≠ 1 →
      ¬ (("positive" ∈ vs ∧ "negative" ∈ vs) ∨ "conflict" ∈ vs) →
      "positive" ∈ vs ∧ "neutral" ∈ vs →
      (Sem15.bucket_step lastPol st (c, vs)).1 = st.1 ++ [(c, "positive")]) ∧
    (∀ (lastPol : String)
        (st : List (String × String) × List String × List String)
        (c : String) (vs : List String), vs.length ≠ 1 →
      ¬ (("positive" ∈ vs ∧ "negative" ∈ vs) ∨ "conflict" ∈ vs) →
      ¬ ("positive" ∈ vs ∧ "neutral" ∈ vs) →
      (Sem15.bucket_step lastPol st (c, vs)).1 = st.1 ++ [(c, "negative")]) := by
  refine ⟨?_, ?_, ?_, ?_, ?_, ?_⟩
  · intro cats pols s
    unfold Sem15.sentence_step
    rw [foldl_bucket_step_fst]
    simp
  · intro terms
    exact aspect_categories_temp_inv terms
  · intro lastPol st c p vs hvs
    subst hvs
    unfold Sem15.bucket_step
    rw [if_pos (by simp)]
    rfl
  · intro lastPol st c vs hlen hcond
    unfold Sem15.bucket_step
    rw [if_neg (by simpa using hlen), if_pos hcond]
  · intro lastPol st c vs hlen hcond1 hcond2
    unfold Sem15.bucket_step
    rw [if_neg (by simpa using hlen), if_neg hcond1, if_pos hcond2]
  · intro lastPol st c vs hlen hcond1 hcond2
    unfold Sem15.bucket_step
    rw [if_neg (by simpa using hlen), if_neg hcond1, if_neg hcond2]

/-- Witness for C1: a sentence with positive and negative votes on the same
category emits a single conflict pair. -/
theorem C1_reconciliation_witness :
    (Sem15.sentence_step [] []
        (Sem15.AbsaSentence.mk ['x'] []
          [Sem15.AspectTerm.mk ['p'] "positive" 0 1 "FOOD",
           Sem15.AspectTerm.mk ['q'] "negative" 2 3 "FOOD"])).1 =
      [("FOOD", "conflict")] ∧
    (Sem15.bucket_step "negative" ([], [], [])
        ("FOOD", ["positive", "negative"])).1 = [("FOOD", "conflict")] := by
  constructor
  · rw [C1_reconciliation.1]
    rfl
  · rw [C1_reconciliation.2.2.2.1 "negative" ([], [], []) "FOOD"
      ["positive", "negative"] (by decide) (by simp)]
    rfl

/-! ## Claim C9: the vocabulary bug in the singleton branch -/

/-- The failing input for C9: one sentence whose last term's polarity
(`neutral`) sits in a multi-vote bucket that reconciles to `positive`,
while category `A`'s singleton bucket records the stale loop variable. -/
def c9_document : Sem15.AbsaDocument :=
  Sem15.AbsaDocument.mk ['t']
    [Sem15.AbsaSentence.mk ['t'] []
      [Sem15.AspectTerm.mk ['a'] "positive" 0 1 "A",
       Sem15.AspectTerm.mk ['b'] "positive" 2 3 "B",
       Sem15.AspectTerm.mk ['c'] "neutral" 4 5 "B"]]

/-- C9 evidence: on `c9_document` the emitted labels are
`[("A", positive), ("B", positive)]` — their distinct polarities are exactly
`["positive"]` (second conjunct) — yet the returned polarity vocabulary is
`["neutral", "positive"]` (first conjunct): the singleton branch of
`generate_acd_and_sc_data` adds the stale term-loop variable `polarity`
(the last term's polarity, here `neutral`) instead of the polarity it
emits, so the vocabulary is not the set of polarities observed in the
emitted labels (third conjunct). -/
theorem C9_stale_polarity_eval :
    Sem15.generate_acd_and_sc_data
        (PartitionedData.mk (some [c9_document]) (some []) none) 0 =
      .ok (PartitionedData.mk
          (some [(['t'], [("A", "positive"), ("B", "positive")])])
          (some []) none,
        ["A", "B"], ["neutral", "positive"]) ∧
    pySortStr
        ((([(['t'], [("A", "positive"), ("B", "positive")])] :
            List (List Char × List (String × String))).flatMap
          (fun smp => smp.2.map Prod.snd)).foldl setAdd []) = ["positive"] ∧
    (["neutral", "positive"] : List String) ≠ ["positive"] := by
  refine ⟨rfl, rfl, by decide⟩

/-! ## `Semeval2014Task4Rest.generate_acd_and_sc_data` (lines 449-483) -/

namespace Rest14

/-- One sample (lines 467-476): the text with every `[\r\n]` character
replaced by a space, labelled by the sentence's (category, polarity)
pairs, appended unconditionally. -/
def acd_sc_sentence_sample (s : Base.AbsaSentence) :
    List Char × List (String × String) :=
  (reSubCrLf [' '] s.text,
    s.aspect_categories.map (fun c => (c.category, c.polarity)))

/-- The partition loop, threading both vocabularies. -/
def process_partition (cats pols : List String)
    (data : List Base.AbsaDocument) :
    List (List Char × List (String × String)) × List String × List String :=
  data.foldl
    (fun st d =>
      d.absa_sentences.foldl
        (fun st s =>
          (st.1 ++ [acd_sc_sentence_sample s],
            s.aspect_categories.foldl
              (fun acc c => setAdd acc c.category) st.2.1,
            s.aspect_categories.foldl
              (fun acc c => setAdd acc c.polarity) st.2.2))
        st)
    ([], cats, pols)

/-- Skip absent partitions. -/
def process_partition_opt (cats pols : List String)
    (data : Option (List Base.AbsaDocument)) :
    Option (List (List Char × List (String × String))) ×
      List String × List String :=
  match data with
  | none => (none, cats, pols)
  | some d =>
    let r := process_partition cats pols d
    (some r.1, r.2.1, r.2.2)

/-- `Semeval2014Task4Rest.generate_acd_and_sc_data`. -/
def generate_acd_and_sc_data (parts : PartitionedData Base.AbsaDocument)
    (dev_size : ℚ) :
    Except String
      (PartitionedData (List Char × List (String × String)) ×
        List String × List String) :=
  let rTrain := process_partition_opt [] [] parts.train
  let rDev := process_partition_opt rTrain.2.1 rTrain.2.2 parts.dev
  let rTest := process_partition_opt rDev.2.1 rDev.2.2 parts.test
  let result : PartitionedData (List Char × List (String × String)) :=
    ⟨rTrain.1, rDev.1, rTest.1⟩
  match generate_dev_data result dev_size 1234 with
  | .error e => .error e
  | .ok result =>
    .ok (result, pySortStr rTest.2.1, pySortStr rTest.2.2)

end Rest14

/-! ## Claim C8: text normalization -/

/-- C8 counterexample: on the text `"a\r\nb"` the term-level derivation
yields `"ab"`, the Semeval-2014 category derivation yields `"a  b"` (each
of the two characters becomes its own space), but the Semeval-2015
category derivation yields `"a b"` (the whole run becomes one space) —
the category-level derivations do not all replace a carriage-return or
newline with a single space each, so the claim's uniform description of
the category-level derivations is false. -/
theorem C8_counterexample :
    (Base.generate_atsa_data
        (PartitionedData.mk
          (some [Base.AbsaDocument.mk ['a', '\r', '\n', 'b']
            [Base.AbsaSentence.mk ['a', '\r', '\n', 'b'] [] []]])
          (some []) none)
        (some 0) 0).map (fun r => r.1.train) =
      .ok (some [(['a', 'b'], [])]) ∧
    (Rest14.generate_acd_and_sc_data
        (PartitionedData.mk
          (some [Base.AbsaDocument.mk ['a', '\r', '\n', 'b']
            [Base.AbsaSentence.mk ['a', '\r', '\n', 'b']
              [Base.AspectCategory.mk "C" "positive"] []]])
          (some []) none)
        0).map (fun r => r.1.train) =
      .ok (some [(['a', ' ', ' ', 'b'], [("C", "positive")])]) ∧
    (Sem15.generate_acd_and_sc_data
        (PartitionedData.mk
          (some [Sem15.AbsaDocument.mk ['a', '\r', '\n', 'b']
            [Sem15.AbsaSentence.mk ['a', '\r', '\n', 'b'] []
              [Sem15.AspectTerm.mk ['x'] "positive" 0 1 "C"]]])
          (some []) none)
        0).map (fun r => r.1.train) =
      .ok (some [(['a', ' ', 'b'], [("C", "positive")])]) ∧
    (['a', ' ', 'b'] : List Char) ≠ ['a', ' ', ' ', 'b'] := by
  refine ⟨rfl, rfl, rfl, by decide⟩

/-- `re.sub('[\r\n]', '', s)` deletes exactly the CR/NL characters. -/
theorem reSubCrLf_empty_eq_filter :
    ∀ s : List Char, reSubCrLf [] s = s.filter (fun c => !(isCrLf c))
  | [] => rfl
  | c :: rest => by
    simp only [reSubCrLf, List.filter_cons]
    by_cases hc : isCrLf c <;>
      simp [hc, reSubCrLf_empty_eq_filter rest]

/-- `re.sub('[\r\n]', ' ', s)` replaces each CR/NL character by one space. -/
theorem reSubCrLf_space_eq_map :
    ∀ s : List Char,
      reSubCrLf [' '] s = s.map (fun c => if isCrLf c then ' ' else c)
  | [] => rfl
  | c :: rest => by
    simp only [reSubCrLf, List.map_cons]
    by_cases hc : isCrLf c <;>
      simp [hc, reSubCrLf_space_eq_map rest]

/-- C8 amended: the term-level derivation (`generate_atsa_data`) removes
each CR/NL character outright; the Semeval-2014 category derivation
replaces each CR/NL character with one space; the Semeval-2015 category
derivation instead replaces each maximal nonempty run of CR/NL characters
with a single space (its `re.sub` pattern is `[\r\n]+`), as the three
final conjuncts — the recursion equations of its normalizer — state. -/
theorem C8_amended :
    (∀ s : Base.AbsaSentence,
      (Base.atsa_sentence_sample s).1 =
        s.text.filter (fun c => !(isCrLf c))) ∧
    (∀ s : Base.AbsaSentence,
      (Rest14.acd_sc_sentence_sample s).1 =
        s.text.map (fun c => if isCrLf c then ' ' else c)) ∧
    reSubCrLfPlus [' '] [] = [] ∧
    (∀ (c : Char) (rest : List Char), isCrLf c = true →
      reSubCrLfPlus [' '] (c :: rest) =
        ' ' :: reSubCrLfPlus [' '] (rest.dropWhile isCrLf)) ∧
    (∀ (c : Char) (rest : List Char), isCrLf c = false →
      reSubCrLfPlus [' '] (c :: rest) = c :: reSubCrLfPlus [' '] rest) := by
  refine ⟨?_, ?_, rfl, ?_, ?_⟩
  · intro s
    exact reSubCrLf_empty_eq_filter s.text
  · intro s
    exact reSubCrLf_space_eq_map s.text
  · intro c rest hc
    exact reSubCrLfPlus_cons_pos [' '] c rest hc
  · intro c rest hc
    exact reSubCrLfPlus_cons_neg [' '] c rest (by simp [hc])

/-- Witness for the amended C8 at `"a\r\nb"`. -/
theorem C8_amended_witness :
    (Base.atsa_sentence_sample
        (Base.AbsaSentence.mk ['a', '\r', '\n', 'b'] [] [])).1 =
      (['a', '\r', '\n', 'b'].filter (fun c => !(isCrLf c))) ∧
    reSubCrLfPlus [' '] ['\r', '\n', 'b'] =
      ' ' :: reSubCrLfPlus [' '] (['\n', 'b'].dropWhile isCrLf) := by
  constructor
  · exact C8_amended.1 (Base.AbsaSentence.mk ['a', '\r', '\n', 'b'] [] [])
  · exact C8_amended.2.2.2.1 '\r' ['\n', 'b'] (by decide)

/-! ## The attribute-enumerated dialect adapter (`Nlpcc2012WeiboSa`) -/

namespace Nlpcc

/-- The dynamically formatted attribute names the adapter probes
(`'opinionated'`, `'polarity'`, `'target_word_%d' % i`, ...).  The `%d`
formatting of distinct indices yields distinct key strings, which the
inductive constructors encode. -/
inductive AttrKey where
  | id
  | opinionated
  | polarity
  | target_word (n : Nat)
  | target_begin (n : Nat)
  | target_end (n : Nat)
  | target_polarity (n : Nat)
  | other (s : String)
deriving DecidableEq, Repr

/-- A parsed `<sentence>` element: its attributes and its text content
(`get_text()`). -/
structure SentenceTag where
  attrs : List (AttrKey × String)
  text : String
deriving DecidableEq, Repr

/-- `tag.get(key)`: the value of the first matching attribute, if any. -/
def tagGet : List (AttrKey × String) → AttrKey → Option String
  | [], _ => none
  | (k, v) :: rest, key => if key = k then some v else tagGet rest key

/-- `tag.get(key, default)`. -/
def tagGetD (attrs : List (AttrKey × String)) (key : AttrKey) (d : String) :
    String :=
  (tagGet attrs key).getD d

/-- Parse a run of decimal digits. -/
def parseDigitsAux : List Char → Nat → Option Nat
  | [], acc => some acc
  | c :: rest, acc =>
    if c.isDigit then
      parseDigitsAux rest (10 * acc + (c.toNat - '0'.toNat))
    else none

/-- Parse a nonempty run of decimal digits. -/
def parseDigits : List Char → Option Nat
  | [] => none
  | ds => parseDigitsAux ds 0

/-- Python `int(...)` on a string (optional sign, decimal digits). -/
def pyIntChars : List Char → Option Int
  | '-' :: rest => (parseDigits rest).map (fun n => -(n : Int))
  | s => (parseDigits s).map (fun n => (n : Int))

/-- Python `int(...)` on an optional attribute value: `int(None)` is a
`TypeError` and a non-numeric string a `ValueError`; both are `none`. -/
def pyInt : Option String → Option Int
  | none => none
  | some s => pyIntChars s.data

/-- How the sentence construction can raise: `int()` on a missing or
malformed `target_begin`/`target_end` attribute, or exhaustion of the
recursion bound (which `load_sentence_no_fuel_error` rules out). -/
inductive ScanErr where
  | fuelExhausted
  | intError
deriving DecidableEq, Repr

/-- `AspectTerm` as built on line 312: the polarity attribute may be
absent (`None`); the end offset is the raw attribute value plus one. -/
structure AspectTerm where
  term : String
  polarity : Option String
  from_index : Int
  to_index : Int
deriving DecidableEq, Repr

/-- `AbsaSentence` with the fields this claim concerns. -/
structure AbsaSentence where
  text : String
  polarity : Option String
  aspect_terms : List AspectTerm
deriving DecidableEq, Repr

/-- The `while sentence_tag.get('target_word_%d' % cursor, ''):` loop of
lines 306-314: scan cursors upward while the indexed word attribute is
present and non-empty, building one `AspectTerm` per present index.
`fuel` bounds the recursion; the top-level call passes
`attrs.length + 1`, which can never exhaust (see
`load_sentence_no_fuel_error`). -/
def scanTargets (attrs : List (AttrKey × String)) :
    Nat → Nat → Except ScanErr (List AspectTerm)
  | _, 0 => .error .fuelExhausted
  | cursor, fuel + 1 =>
    if tagGetD attrs (.target_word cursor) "" ≠ "" then
      match pyInt (tagGet attrs (.target_begin cursor)),
          pyInt (tagGet attrs (.target_end cursor)) with
      | some target_begin, some target_end_raw =>
        let t := AspectTerm.mk (tagGetD attrs (.target_word cursor) "")
          (tagGet attrs (.target_polarity cursor)) target_begin
          (target_end_raw + 1)
        (scanTargets attrs (cursor + 1) fuel).map (fun ts => t :: ts)
      | _, _ => .error .intError
    else .ok []

/-- Lines 299-316: a sentence carries annotations only when its
`opinionated` flag equals `'Y'`; otherwise it has no polarity and no
aspect terms. -/
def load_sentence (tag : SentenceTag) : Except ScanErr AbsaSentence :=
  if tagGetD tag.attrs .opinionated "" = "Y" then
    match scanTargets tag.attrs 1 (tag.attrs.length + 1) with
    | .ok ts => .ok (AbsaSentence.mk tag.text (tagGet tag.attrs .polarity) ts)
    | .error e => .error e
  else .ok (AbsaSentence.mk tag.text none [])

end Nlpcc

/-! ## Claim C6: the attribute scan -/

/-- A non-default `tag.get(key, '')` means the key is present. -/
theorem tagGetD_ne_default_mem :
    ∀ (attrs : List (Nlpcc.AttrKey × String)) (key : Nlpcc.AttrKey),
      Nlpcc.tagGetD attrs key "" ≠ "" → key ∈ attrs.map Prod.fst
  | [], key, h => by simp [Nlpcc.tagGetD, Nlpcc.tagGet] at h
  | (k, v) :: rest, key, h => by
    simp only [List.map_cons, List.mem_cons]
    by_cases hk : key = k
    · exact Or.inl hk
    · refine Or.inr (tagGetD_ne_default_mem rest key ?_)
      simpa [Nlpcc.tagGetD, Nlpcc.tagGet, hk] using h

/-- Fuel exhaustion would require the word guard to hold at every scanned
cursor. -/
theorem scanTargets_fuel_guards (attrs : List (Nlpcc.AttrKey × String)) :
    ∀ (fuel cursor : Nat),
      Nlpcc.scanTargets attrs cursor fuel = .error .fuelExhausted →
      ∀ i < fuel, Nlpcc.tagGetD attrs (.target_word (cursor + i)) "" ≠ ""
  | 0, cursor, _ => by
    intro i hi
    exact absurd hi (by omega)
  | fuel + 1, cursor, h => by
    simp only [Nlpcc.scanTargets] at h
    by_cases hg : Nlpcc.tagGetD attrs (.target_word cursor) "" ≠ ""
    · rw [if_pos hg] at h
      cases hb : Nlpcc.pyInt (Nlpcc.tagGet attrs (.target_begin cursor)) with
      | none =>
        rw [hb] at h
        cases he : Nlpcc.pyInt (Nlpcc.tagGet attrs (.target_end cursor)) <;>
          rw [he] at h <;> exact absurd h (by simp)
      | some b =>
        rw [hb] at h
        cases he : Nlpcc.pyInt (Nlpcc.tagGet attrs (.target_end cursor)) with
        | none => rw [he] at h; exact absurd h (by simp)
        | some e =>
          rw [he] at h
          cases hs : Nlpcc.scanTargets attrs (cursor + 1) fuel with
          | ok ts => rw [hs] at h; exact absurd h (by simp [Except.map])
          | error err =>
            rw [hs] at h
            simp only [Except.map, Except.error.injEq] at h
            subst h
            have ih := scanTargets_fuel_guards attrs fuel (cursor + 1) hs
            intro i hi
            cases i with
            | zero => simpa using hg
            | succ j =>
              have hj := ih j (by omega)
              have harith : cursor + 1 + j = cursor + (j + 1) := by omega
              rw [harith] at hj
              exact hj
    · rw [if_neg hg] at h
      exact absurd h (by simp)

/-- The top-level fuel `attrs.length + 1` can never exhaust: a guard chain
of that length would require more distinct present keys than there are
attributes. -/
theorem scanTargets_no_fuel_error (attrs : List (Nlpcc.AttrKey × String)) :
    Nlpcc.scanTargets attrs 1 (attrs.length + 1) ≠ .error .fuelExhausted := by
  intro h
  have hg := scanTargets_fuel_guards attrs (attrs.length + 1) 1 h
  have hmem : ∀ i < attrs.length + 1,
      Nlpcc.AttrKey.target_word (1 + i) ∈ attrs.map Prod.fst := by
    intro i hi
    exact tagGetD_ne_default_mem attrs _ (hg i hi)
  have hnd : ((List.range (attrs.length + 1)).map
      (fun i => Nlpcc.AttrKey.target_word (1 + i))).Nodup := by
    refine List.Nodup.map ?_ (List.nodup_range _)
    intro a b hab
    have := Nlpcc.AttrKey.target_word.inj hab
    omega
  have hsub : ((List.range (attrs.length + 1)).map
        (fun i => Nlpcc.AttrKey.target_word (1 + i))).toFinset ⊆
      (attrs.map Prod.fst).toFinset := by
    intro k hk
    rw [List.mem_toFinset] at hk ⊢
    obtain ⟨i, hi, rfl⟩ := List.mem_map.mp hk
    exact hmem i (List.mem_range.mp hi)
  have h1 : ((List.range (attrs.length + 1)).map
      (fun i => Nlpcc.AttrKey.target_word (1 + i))).toFinset.card =
        attrs.length + 1 := by
    rw [List.toFinset_card_of_nodup hnd]
    simp
  have h2 : (attrs.map Prod.fst).toFinset.card ≤ attrs.length := by
    have := List.toFinset_card_le (attrs.map Prod.fst)
    simpa using this
  have h3 := Finset.card_le_card hsub
  omega

/-- A successful scan finds the word attribute present at every produced
index, stops at the first absent index, and each produced term carries the
raw end attribute plus one, the word and the indexed polarity. -/
theorem scanTargets_ok_char (attrs : List (Nlpcc.AttrKey × String)) :
    ∀ (fuel cursor : Nat) (ts : List Nlpcc.AspectTerm),
      Nlpcc.scanTargets attrs cursor fuel = .ok ts →
      (∀ i < ts.length,
        Nlpcc.tagGetD attrs (.target_word (cursor + i)) "" ≠ "") ∧
      Nlpcc.tagGetD attrs (.target_word (cursor + ts.length)) "" = "" ∧
      (∀ (i : Nat) (h : i < ts.length), ∃ e : Int,
        Nlpcc.pyInt (Nlpcc.tagGet attrs (.target_end (cursor + i))) =
          some e ∧
        (ts.get ⟨i, h⟩).to_index = e + 1 ∧
        (ts.get ⟨i, h⟩).term =
          Nlpcc.tagGetD attrs (.target_word (cursor + i)) "" ∧
        (ts.get ⟨i, h⟩).polarity =
          Nlpcc.tagGet attrs (.target_polarity (cursor + i)))
  | 0, cursor, ts, h => by exact absurd h (by simp [Nlpcc.scanTargets])
  | fuel + 1, cursor, ts, h => by
    simp only [Nlpcc.scanTargets] at h
    by_cases hg : Nlpcc.tagGetD attrs (.target_word cursor) "" ≠ ""
    · rw [if_pos hg] at h
      cases hb : Nlpcc.pyInt (Nlpcc.tagGet attrs (.target_begin cursor)) with
      | none =>
        rw [hb] at h
        cases he : Nlpcc.pyInt (Nlpcc.tagGet attrs (.target_end cursor)) <;>
          rw [he] at h <;> exact absurd h (by simp)
      | some b =>
        rw [hb] at h
        cases he : Nlpcc.pyInt (Nlpcc.tagGet attrs (.target_end cursor)) with
        | none => rw [he] at h; exact absurd h (by simp)
        | some e =>
          rw [he] at h
          cases hs : Nlpcc.scanTargets attrs (cursor + 1) fuel with
          | error err => rw [hs] at h; exact absurd h (by simp [Except.map])
          | ok ts0 =>
            rw [hs] at h
            simp only [Except.map, Except.ok.injEq] at h
            obtain ⟨hgs, hstop, hterms⟩ :=
              scanTargets_ok_char attrs fuel (cursor + 1) ts0 hs
            subst h
            refine ⟨?_, ?_, ?_⟩
            · intro i hi
              cases i with
              | zero => simpa using hg
              | succ j =>
                have hj := hgs j (by simpa using hi)
                have harith : cursor + 1 + j = cursor + (j + 1) := by omega
                rw [harith] at hj
                exact hj
            · have harith : cursor + (ts0.length + 1) =
                  cursor + 1 + ts0.length := by omega
              simp only [List.length_cons, harith]
              exact hstop
            · intro i hil
              cases i with
              | zero =>
                exact ⟨e, by simpa using he, rfl, rfl, rfl⟩
              | succ j =>
                have hj : j < ts0.length := by simpa using hil
                obtain ⟨e0, he0, ht0, hw0, hp0⟩ := hterms j hj
                have harith : cursor + 1 + j = cursor + (j + 1) := by omega
                rw [harith] at he0 hw0 hp0
                exact ⟨e0, he0, ht0, hw0, hp0⟩
    · rw [if_neg hg] at h
      simp only [Except.ok.injEq] at h
      subst h
      refine ⟨?_, ?_, ?_⟩
      · intro i hi
        exact absurd hi (by simp)
      · simpa using not_not.mp hg
      · intro i hi
        exact absurd hi (by simp)

/-- C6: in the `Nlpcc2012WeiboSa` adapter, (1) a sentence whose
`opinionated` flag is not `'Y'` contributes no aspect terms and no
polarity; (2) the scan stops at a cursor whose `target_word_N` attribute
is absent or empty; (3) while it is present and non-empty (and the span
attributes parse) the scan emits exactly one `AspectTerm` whose end
offset is the raw `target_end_N` value plus one and recurses at the next
cursor; (4) every successful scan produces exactly one term per present
index starting at its cursor, stopping at the first absent index, each
term carrying the raw end value plus one; (5) the recursion bound of the
sentence loader never fires, so the scan truly runs "while present". -/
theorem C6_nlpcc_scan :
    (∀ tag : Nlpcc.SentenceTag,
      Nlpcc.tagGetD tag.attrs .opinionated "" ≠ "Y" →
      Nlpcc.load_sentence tag =
        .ok (Nlpcc.AbsaSentence.mk tag.text none [])) ∧
    (∀ (attrs : List (Nlpcc.AttrKey × String)) (cursor fuel : Nat),
      Nlpcc.tagGetD attrs (.target_word cursor) "" = "" →
      Nlpcc.scanTargets attrs cursor (fuel + 1) = .ok []) ∧
    (∀ (attrs : List (Nlpcc.AttrKey × String)) (cursor fuel : Nat)
        (b e : Int),
      Nlpcc.tagGetD attrs (.target_word cursor) "" ≠ "" →
      Nlpcc.pyInt (Nlpcc.tagGet attrs (.target_begin cursor)) = some b →
      Nlpcc.pyInt (Nlpcc.tagGet attrs (.target_end cursor)) = some e →
      Nlpcc.scanTargets attrs cursor (fuel + 1) =
        (Nlpcc.scanTargets attrs (cursor + 1) fuel).map
          (fun ts => Nlpcc.AspectTerm.mk
            (Nlpcc.tagGetD attrs (.target_word cursor) "")
            (Nlpcc.tagGet attrs (.target_polarity cursor)) b (e + 1) :: ts)) ∧
    (∀ (attrs : List (Nlpcc.AttrKey × String)) (fuel cursor : Nat)
        (ts : List Nlpcc.AspectTerm),
      Nlpcc.scanTargets attrs cursor fuel = .ok ts →
      (∀ i < ts.length,
        Nlpcc.tagGetD attrs (.target_word (cursor + i)) "" ≠ "") ∧
      Nlpcc.tagGetD attrs (.target_word (cursor + ts.length)) "" = "" ∧
      (∀ (i : Nat) (h : i < ts.length), ∃ e : Int,
        Nlpcc.pyInt (Nlpcc.tagGet attrs (.target_end (cursor + i))) =
          some e ∧
        (ts.get ⟨i, h⟩).to_index = e + 1 ∧
        (ts.get ⟨i, h⟩).term =
          Nlpcc.tagGetD attrs (.target_word (cursor + i)) "" ∧
        (ts.get ⟨i, h⟩).polarity =
          Nlpcc.tagGet attrs (.target_polarity (cursor + i)))) ∧
    (∀ tag : Nlpcc.SentenceTag,
      Nlpcc.load_sentence tag ≠ .error .fuelExhausted) := by
  refine ⟨?_, ?_, ?_, scanTargets_ok_char, ?_⟩
  · intro tag h
    unfold Nlpcc.load_sentence
    rw [if_neg h]
  · intro attrs cursor fuel h
    simp only [Nlpcc.scanTargets]
    rw [if_neg (by simp [h])]
  · intro attrs cursor fuel b e hw hb he
    simp only [Nlpcc.scanTargets]
    rw [if_pos hw, hb, he]
  · intro tag hcon
    unfold Nlpcc.load_sentence at hcon
    by_cases hop : Nlpcc.tagGetD tag.attrs .opinionated "" = "Y"
    · rw [if_pos hop] at hcon
      cases hs : Nlpcc.scanTargets tag.attrs 1 (tag.attrs.length + 1) with
      | ok ts => rw [hs] at hcon; exact absurd hcon (by simp)
      | error e =>
        rw [hs] at hcon
        simp only [Except.error.injEq] at hcon
        exact scanTargets_no_fuel_error tag.attrs (hcon ▸ hs)
    · rw [if_neg hop] at hcon
      exact absurd hcon (by simp)

/-- A concrete two-term sentence tag for the C6 witness. -/
def c6_attrs : List (Nlpcc.AttrKey × String) :=
  [(.opinionated, "Y"), (.polarity, "POS"),
   (.target_word 1, "w"), (.target_begin 1, "2"), (.target_end 1, "4"),
   (.target_polarity 1, "NEG")]

/-- Witness for C6 at `c6_attrs`: the non-opinionated branch, one scan
step with end offset `4 + 1`, the stop at cursor 2, and the
characterization of the resulting one-term scan. -/
theorem C6_nlpcc_scan_witness :
    Nlpcc.load_sentence (Nlpcc.SentenceTag.mk [(.opinionated, "N")] "t") =
      .ok (Nlpcc.AbsaSentence.mk "t" none []) ∧
    Nlpcc.scanTargets c6_attrs 1 2 =
      (Nlpcc.scanTargets c6_attrs 2 1).map
        (fun ts => Nlpcc.AspectTerm.mk "w" (some "NEG") 2 (4 + 1) :: ts) ∧
    Nlpcc.scanTargets c6_attrs 2 1 = .ok [] ∧
    Nlpcc.tagGetD c6_attrs (.target_word (1 + 1)) "" = "" := by
  refine ⟨C6_nlpcc_scan.1 _ (by decide), ?_, ?_, ?_⟩
  · exact C6_nlpcc_scan.2.2.1 c6_attrs 1 1 2 4 (by decide) (by rfl) (by rfl)
  · exact C6_nlpcc_scan.2.1 c6_attrs 2 0 (by decide)
  · exact (C6_nlpcc_scan.2.2.2.1 c6_attrs 2 1
      [Nlpcc.AspectTerm.mk "w" (some "NEG") 2 5] (by rfl)).2.1
